import Mathlib

/-!
Shallow embedding of
`x-pack/plugins/maps/public/classes/sources/esql_source/convert_to_geojson.ts`.

The converter walks the rows of an ES|QL tabular response, parses the value of
the geometry column as well-known text, and collects one GeoJSON feature per
successfully parsed row.  JavaScript values appearing in rows are modelled by
`JSValue`; the loose truthiness test `!wkt` is `truthy`; a JS object used as a
property bag is modelled by an insertion-ordered association list with
overwrite-on-assignment (`objSet`) and key lookup (`getProp`).

The WKT parser (`parse` from the `wellknown` npm package) is an external
collaborator: it is taken as a parameter `parse : JSValue → Except Unit γ`
whose `Except.error` models a thrown exception and whose `Except.ok` models a
normal return (of an arbitrary value, possibly a "null" geometry).  The body of
the `try { ... } catch` block — the parse followed by the properties loop — is
modelled in the `Except Unit` monad: any error makes the row contribute no
feature, exactly as the swallowed exception does in the source.
-/

namespace EsqlGeoJson

/-- A loosely typed JavaScript value as it appears in an ES|QL result row. -/
inductive JSValue where
  | vNull : JSValue
  | vUndefined : JSValue
  | vBool : Bool → JSValue
  | vNum : Int → JSValue
  | vStr : String → JSValue
  deriving DecidableEq, Repr

/-- JavaScript truthiness, as consumed by the source's `if (!wkt) continue;`:
`null`, `undefined`, `false`, `0` and the empty string are falsy. -/
def truthy : JSValue → Bool
  | .vNull => false
  | .vUndefined => false
  | .vBool b => b
  | .vNum n => decide (n ≠ 0)
  | .vStr s => decide (s ≠ "")

/-- An ES|QL column descriptor: `{ name, type }`. -/
structure Column where
  name : String
  type : String
  deriving DecidableEq, Repr

/-- The property bag of a feature: a JS object modelled as an
insertion-ordered association list with unique keys. -/
abbrev PropList := List (String × JSValue)

/-- Reading `props[k]` from a JS object: the entry stored under key `k`. -/
def getProp : PropList → String → Option JSValue
  | [], _ => none
  | (k, v) :: rest, n => if k = n then some v else getProp rest n

/-- JS property assignment `props[k] = v`: if the key is already present its
value is overwritten in place (keeping its insertion position), otherwise the
entry is appended at the end. -/
def objSet : PropList → String → JSValue → PropList
  | [], k, v => [(k, v)]
  | (k', v') :: rest, k, v =>
    if k' = k then (k, v) :: rest else (k', v') :: objSet rest k v

/-- The error thrown by the geometry-column locator when the geometry column
cannot be uniquely identified. -/
inductive ColumnResolutionError where
  | mk : ColumnResolutionError
  deriving DecidableEq, Repr

/-- Indices (counting from `start`) of the columns recognized as geometry
columns by the recognition predicate `isGeom`. -/
def geomCandidatesFrom (isGeom : Column → Bool) : Nat → List Column → List Nat
  | _, [] => []
  | j, c :: rest =>
    if isGeom c then j :: geomCandidatesFrom isGeom (j + 1) rest
    else geomCandidatesFrom isGeom (j + 1) rest

/-- Modelled from the spec: `getGeometryColumnIndex` lives in
`./esql_utils`, which is not among the supplied sources.  Per the spec it is
the collaborator that, "given the ordered column descriptors, returns the
single index whose column is recognized as the geometry column; fails if none
or multiple match".  The recognition convention itself is abstracted as the
predicate `isGeom`. -/
def getGeometryColumnIndex (isGeom : Column → Bool) (columns : List Column) :
    Except ColumnResolutionError Nat :=
  match geomCandidatesFrom isGeom 0 columns with
  | [j] => .ok j
  | _ => .error .mk

/-- The name of the column at index `j`, when that index is in bounds. -/
def colName (columns : List Column) (j : Nat) : Option String :=
  (columns.get? j).map Column.name

/-- The list `[(s, l₀), (s+1, l₁), ...]` of loop indices paired with row
values, mirroring `for (let j = 0; j < hit.length; j++)`. -/
def idxPairs : Nat → List JSValue → List (Nat × JSValue)
  | _, [] => []
  | j, v :: rest => (j, v) :: idxPairs (j + 1) rest

/-- One step of the properties loop per remaining `(j, hit[j])` pair:
the geometry index is skipped; `resp.columns[j]` being out of bounds means the
source reads `.name` of `undefined`, which throws (modelled by `.error ()`);
otherwise `properties[resp.columns[j].name] = hit[j]`. -/
def buildPropsAux (columns : List Column) (geometryIndex : Nat) :
    List (Nat × JSValue) → PropList → Except Unit PropList
  | [], props => .ok props
  | (j, v) :: rest, props =>
    if j = geometryIndex then buildPropsAux columns geometryIndex rest props
    else
      match columns.get? j with
      | none => .error ()
      | some col => buildPropsAux columns geometryIndex rest (objSet props col.name v)

/-- The properties loop of the source, bounded by the row's own length. -/
def buildProps (columns : List Column) (geometryIndex : Nat) (hit : List JSValue) :
    Except Unit PropList :=
  buildPropsAux columns geometryIndex (idxPairs 0 hit) []

/-- A GeoJSON feature: `{ type: 'Feature', geometry, properties }`.  The
geometry is whatever the WKT parser returned, of abstract type `γ`. -/
structure Feature (γ : Type) where
  type : String
  geometry : γ
  properties : PropList
  deriving DecidableEq

/-- Reading `hit[geometryIndex]` in JS: out-of-range access yields
`undefined`. -/
def geomValue (geometryIndex : Nat) (hit : List JSValue) : JSValue :=
  (hit.get? geometryIndex).getD JSValue.vUndefined

/-- One iteration of the row loop: the truthiness guard, then the
`try { parse; properties loop; push } catch { /* skip */ }` block.  `none`
means the row contributes no feature. -/
def processRow {γ : Type} (parse : JSValue → Except Unit γ) (columns : List Column)
    (geometryIndex : Nat) (hit : List JSValue) : Option (Feature γ) :=
  let wkt := geomValue geometryIndex hit
  if truthy wkt then
    match parse wkt with
    | .error _ => none
    | .ok geometry =>
      match buildProps columns geometryIndex hit with
      | .error _ => none
      | .ok properties => some ⟨"Feature", geometry, properties⟩
  else none

/-- The row loop with its `features.push(...)` accumulator. -/
def convertLoop {γ : Type} (parse : JSValue → Except Unit γ) (columns : List Column)
    (geometryIndex : Nat) : List (List JSValue) → List (Feature γ) → List (Feature γ)
  | [], features => features
  | hit :: rest, features =>
    match processRow parse columns geometryIndex hit with
    | some f => convertLoop parse columns geometryIndex rest (features ++ [f])
    | none => convertLoop parse columns geometryIndex rest features

/-- A GeoJSON feature collection: `{ type: 'FeatureCollection', features }`. -/
structure FeatureCollection (γ : Type) where
  type : String
  features : List (Feature γ)
  deriving DecidableEq

/-- The ES|QL search response shape consumed by the converter (the source
spells the type `ESQLSearchReponse`). -/
structure ESQLSearchReponse where
  columns : List Column
  values : List (List JSValue)

/-- The embedding of `convertToGeoJson`: resolve the geometry column once (a
locator failure propagates), then run the row loop and wrap the collected
features. -/
def convertToGeoJson {γ : Type} (isGeom : Column → Bool) (parse : JSValue → Except Unit γ)
    (resp : ESQLSearchReponse) : Except ColumnResolutionError (FeatureCollection γ) :=
  match getGeometryColumnIndex isGeom resp.columns with
  | .error e => .error e
  | .ok geometryIndex =>
      .ok ⟨"FeatureCollection", convertLoop parse resp.columns geometryIndex resp.values []⟩

/-- The standard recognition predicate used in concrete instances: the ES|QL
geometry column types. -/
def isGeomStd : Column → Bool :=
  fun c => c.type == "geo_point" || c.type == "geo_shape"

/-- A parser that succeeds on every input, echoing the raw value. -/
def parseOkAll : JSValue → Except Unit JSValue := fun v => .ok v

/-- A parser that throws on every input. -/
def parseFailAll : JSValue → Except Unit JSValue := fun _ => .error ()

/-- A parser that returns normally with a null geometry, as the `wellknown`
parser does on malformed input it can tokenize. -/
def parseNullGeom : JSValue → Except Unit (Option Unit) := fun _ => .ok none

/-- Two columns, the first being the geometry column. -/
def colsGC : List Column := [⟨"geometry", "geo_point"⟩, ⟨"count", "long"⟩]

/-- A single geometry column and no others. -/
def colsOnlyGeo : List Column := [⟨"geometry", "geo_point"⟩]

/-- Columns with no recognizable geometry column. -/
def colsNoGeo : List Column := [⟨"count", "long"⟩]

/-- A row that is longer than `colsOnlyGeo`. -/
def rowOverlong : List JSValue := [.vStr "POINT (1 2)", .vNum 5]

/-- Columns in which the non-geometry name `id` appears twice. -/
def colsDupId : List Column := [⟨"geometry", "geo_point"⟩, ⟨"id", "long"⟩, ⟨"id", "long"⟩]

/-- A row for `colsDupId` with different values under the two `id` columns. -/
def rowDupId : List JSValue := [.vStr "POINT (1 2)", .vNum 1, .vNum 2]

/-- Columns in which a non-geometry column shares the geometry column's name. -/
def colsDupGeomName : List Column := [⟨"geom", "geo_point"⟩, ⟨"geom", "keyword"⟩]

/-- A row for `colsDupGeomName` whose second value equals the raw geometry
value. -/
def rowDupGeomName : List JSValue := [.vStr "POINT (1 2)", .vStr "POINT (1 2)"]

/-- The feature produced from the row `["POINT (1 2)", 5]` under `colsGC` with
the echoing parser. -/
def featCount5 : Feature JSValue := ⟨"Feature", .vStr "POINT (1 2)", [("count", .vNum 5)]⟩

/-- The feature produced from the row `["POINT (1 2)", 7]` under `colsGC` with
the echoing parser. -/
def featCount7 : Feature JSValue := ⟨"Feature", .vStr "POINT (1 2)", [("count", .vNum 7)]⟩

/-- The feature produced from `rowDupId` under `colsDupId` with the echoing
parser: the later `id` column's value wins. -/
def featDupId : Feature JSValue := ⟨"Feature", .vStr "POINT (1 2)", [("id", .vNum 2)]⟩

/-- Right-biased choice on optional values: the last assignment wins. -/
def optOr : Option JSValue → Option JSValue → Option JSValue
  | some v, _ => some v
  | none, b => b

/-- The value stored by the last enabled assignment among the `(j, hit[j])`
pairs: index `j` assigns `v` under key `n` when `j` is not the geometry index
and the column at `j` is named `n`; later pairs take precedence. -/
def lastAssign (columns : List Column) (geometryIndex : Nat) :
    List (Nat × JSValue) → String → Option JSValue
  | [], _ => none
  | (j, v) :: rest, n =>
    optOr (lastAssign columns geometryIndex rest n)
      (if j ≠ geometryIndex ∧ colName columns j = some n then some v else none)

theorem optOr_none_right (a : Option JSValue) : optOr a none = a := by
  cases a <;> rfl

theorem optOr_assoc (a b c : Option JSValue) :
    optOr (optOr a b) c = optOr a (optOr b c) := by
  cases a <;> cases b <;> rfl

theorem getProp_objSet_self (props : PropList) (k : String) (v : JSValue) :
    getProp (objSet props k v) k = some v := by
  induction props with
  | nil => simp [objSet, getProp]
  | cons p rest ih =>
    obtain ⟨k', v'⟩ := p
    by_cases hk : k' = k
    · simp [objSet, hk, getProp]
    · simp [objSet, hk, getProp, ih]

theorem getProp_objSet_ne (props : PropList) (k n : String) (v : JSValue) (h : n ≠ k) :
    getProp (objSet props k v) n = getProp props n := by
  have hkn : ¬ k = n := fun hc => h hc.symm
  induction props with
  | nil => simp [objSet, getProp, hkn]
  | cons p rest ih =>
    obtain ⟨k', v'⟩ := p
    by_cases hk : k' = k
    · subst hk
      simp [objSet, getProp, hkn]
    · by_cases hk'n : k' = n
      · simp [objSet, hk, getProp, hk'n, h]
      · simp [objSet, hk, getProp, hk'n, ih]

theorem buildPropsAux_getProp (columns : List Column) (gi : Nat)
    (L : List (Nat × JSValue)) :
    ∀ (props props' : PropList), buildPropsAux columns gi L props = .ok props' →
      ∀ n, getProp props' n = optOr (lastAssign columns gi L n) (getProp props n) := by
  induction L with
  | nil =>
    intro props props' h n
    simp [buildPropsAux] at h
    subst h
    rfl
  | cons p rest ih =>
    intro props props' h n
    obtain ⟨j, v⟩ := p
    by_cases hj : j = gi
    · rw [buildPropsAux, if_pos hj] at h
      have hcond : ¬ (j ≠ gi ∧ colName columns j = some n) := by
        intro hc
        exact hc.1 hj
      rw [lastAssign, if_neg hcond, optOr_none_right]
      exact ih props props' h n
    · rw [buildPropsAux, if_neg hj] at h
      cases hcol : columns.get? j with
      | none =>
        rw [hcol] at h
        exact Except.noConfusion h
      | some col =>
        rw [hcol] at h
        replace h : buildPropsAux columns gi rest (objSet props col.name v) = .ok props' := h
        have ihn := ih (objSet props col.name v) props' h n
        by_cases hname : col.name = n
        · have hcn : colName columns j = some n := by
            rw [colName, hcol]
            simpa using hname
          have hcond : (j ≠ gi ∧ colName columns j = some n) := ⟨hj, hcn⟩
          rw [lastAssign, if_pos hcond]
          have hself : getProp (objSet props col.name v) n = some v := by
            rw [← hname]
            exact getProp_objSet_self props col.name v
          rw [ihn, hself, optOr_assoc]
          rfl
        · have hcond : ¬ (j ≠ gi ∧ colName columns j = some n) := by
            intro hc
            apply hname
            have h2 := hc.2
            rw [colName, hcol] at h2
            simpa using h2
          rw [lastAssign, if_neg hcond, optOr_none_right]
          rw [ihn, getProp_objSet_ne props col.name n v (fun hc => hname hc.symm)]

theorem getProp_buildProps (columns : List Column) (gi : Nat) (hit : List JSValue)
    (props : PropList) (h : buildProps columns gi hit = .ok props) (n : String) :
    getProp props n = lastAssign columns gi (idxPairs 0 hit) n := by
  have := buildPropsAux_getProp columns gi (idxPairs 0 hit) [] props h n
  rw [this]
  show optOr _ none = _
  exact optOr_none_right _

theorem buildPropsAux_ok (columns : List Column) (gi : Nat) (L : List (Nat × JSValue))
    (hin : ∀ p ∈ L, p.1 ≠ gi → p.1 < columns.length) :
    ∀ props, ∃ props', buildPropsAux columns gi L props = .ok props' := by
  induction L with
  | nil => intro props; exact ⟨props, rfl⟩
  | cons p rest ih =>
    intro props
    obtain ⟨j, v⟩ := p
    have hrest : ∀ p ∈ rest, p.1 ≠ gi → p.1 < columns.length := by
      intro q hq
      exact hin q (List.mem_cons_of_mem _ hq)
    by_cases hj : j = gi
    · obtain ⟨props', hp⟩ := ih hrest props
      exact ⟨props', by rw [buildPropsAux, if_pos hj]; exact hp⟩
    · have hlt : j < columns.length := hin (j, v) (List.mem_cons_self _ _) hj
      obtain ⟨col, hcol⟩ : ∃ col, columns.get? j = some col :=
        ⟨columns.get ⟨j, hlt⟩, List.get?_eq_get hlt⟩
      obtain ⟨props', hp⟩ := ih hrest (objSet props col.name v)
      exact ⟨props', by rw [buildPropsAux, if_neg hj, hcol]; exact hp⟩

theorem mem_idxPairs_bounds (l : List JSValue) :
    ∀ (s : Nat) (p : Nat × JSValue), p ∈ idxPairs s l → s ≤ p.1 ∧ p.1 < s + l.length := by
  induction l with
  | nil => intro s p hp; exact absurd hp (by simp [idxPairs])
  | cons v rest ih =>
    intro s p hp
    rw [idxPairs] at hp
    rcases List.mem_cons.mp hp with h | h
    · subst h
      exact ⟨Nat.le_refl s, by simp⟩
    · obtain ⟨h1, h2⟩ := ih (s + 1) p h
      exact ⟨Nat.le_of_succ_le h1, by simpa [Nat.succ_add] using h2⟩

theorem idxPairs_get_mem (l : List JSValue) :
    ∀ (s k : Nat) (hk : k < l.length), (s + k, l.get ⟨k, hk⟩) ∈ idxPairs s l := by
  induction l with
  | nil => intro s k hk; exact absurd hk (by simp)
  | cons v rest ih =>
    intro s k hk
    cases k with
    | zero => simp [idxPairs]
    | succ m =>
      have hm : m < rest.length := Nat.lt_of_succ_lt_succ hk
      have := ih (s + 1) m hm
      rw [idxPairs]
      refine List.mem_cons_of_mem _ ?_
      have harith : s + 1 + m = s + (m + 1) := by omega
      rw [harith] at this
      exact this

theorem lastAssign_none (columns : List Column) (gi : Nat) (L : List (Nat × JSValue))
    (n : String) (h : ∀ p ∈ L, ¬ (p.1 ≠ gi ∧ colName columns p.1 = some n)) :
    lastAssign columns gi L n = none := by
  induction L with
  | nil => rfl
  | cons p rest ih =>
    obtain ⟨j, v⟩ := p
    rw [lastAssign]
    rw [ih (fun q hq => h q (List.mem_cons_of_mem _ hq))]
    rw [if_neg (h (j, v) (List.mem_cons_self _ _))]
    rfl

theorem lastAssign_some_mem (columns : List Column) (gi : Nat) (L : List (Nat × JSValue))
    (n : String) (v : JSValue) (h : lastAssign columns gi L n = some v) :
    ∃ j, (j, v) ∈ L ∧ j ≠ gi ∧ colName columns j = some n := by
  induction L with
  | nil => exact absurd h (by simp [lastAssign])
  | cons p rest ih =>
    obtain ⟨j, w⟩ := p
    rw [lastAssign] at h
    cases hr : lastAssign columns gi rest n with
    | some u =>
      rw [hr] at h
      have hv : u = v := by
        simpa [optOr] using h
      obtain ⟨j', hmem, hj', hcol⟩ := ih (hv ▸ hr)
      exact ⟨j', List.mem_cons_of_mem _ hmem, hj', hcol⟩
    | none =>
      rw [hr] at h
      by_cases hc : (j ≠ gi ∧ colName columns j = some n)
      · rw [if_pos hc] at h
        have hv : w = v := by
          simpa [optOr] using h
        exact ⟨j, by simp [hv], hc.1, hc.2⟩
      · rw [if_neg hc] at h
        exact absurd h (by simp [optOr])

theorem lastAssign_isSome_of_mem (columns : List Column) (gi : Nat)
    (L : List (Nat × JSValue)) (n : String) (j : Nat) (v : JSValue)
    (hmem : (j, v) ∈ L) (hj : j ≠ gi) (hcol : colName columns j = some n) :
    (lastAssign columns gi L n).isSome := by
  induction L with
  | nil => exact absurd hmem (by simp)
  | cons p rest ih =>
    obtain ⟨j', w⟩ := p
    rw [lastAssign]
    cases hr : lastAssign columns gi rest n with
    | some u => simp [optOr]
    | none =>
      rcases List.mem_cons.mp hmem with h | h
      · rw [Prod.mk.injEq] at h
        obtain ⟨h1, h2⟩ := h
        subst h1
        rw [if_pos ⟨hj, hcol⟩]
        simp [optOr]
      · have := ih h
        rw [hr] at this
        exact absurd this (by simp)

theorem lastAssign_append (columns : List Column) (gi : Nat)
    (L₁ L₂ : List (Nat × JSValue)) (n : String) :
    lastAssign columns gi (L₁ ++ L₂) n =
      optOr (lastAssign columns gi L₂ n) (lastAssign columns gi L₁ n) := by
  induction L₁ with
  | nil => simp [lastAssign, optOr_none_right]
  | cons p rest ih =>
    obtain ⟨j, v⟩ := p
    rw [List.cons_append, lastAssign, lastAssign, ih, optOr_assoc]

theorem idxPairs_append (l₁ l₂ : List JSValue) :
    ∀ s, idxPairs s (l₁ ++ l₂) = idxPairs s l₁ ++ idxPairs (s + l₁.length) l₂ := by
  induction l₁ with
  | nil => intro s; simp [idxPairs]
  | cons v rest ih =>
    intro s
    rw [List.cons_append, idxPairs, idxPairs, ih (s + 1), List.cons_append]
    have harith : s + 1 + rest.length = s + (rest.length + 1) := by omega
    rw [harith]
    rfl

theorem convertLoop_eq {γ : Type} (parse : JSValue → Except Unit γ) (columns : List Column)
    (gi : Nat) (values : List (List JSValue)) :
    ∀ acc, convertLoop parse columns gi values acc
      = acc ++ values.filterMap (processRow parse columns gi) := by
  induction values with
  | nil => intro acc; simp [convertLoop]
  | cons hit rest ih =>
    intro acc
    cases hrow : processRow parse columns gi hit with
    | some f =>
      have hstep : convertLoop parse columns gi (hit :: rest) acc
          = convertLoop parse columns gi rest (acc ++ [f]) := by
        rw [convertLoop, hrow]
      rw [hstep, ih (acc ++ [f]), List.filterMap_cons, hrow, List.append_assoc]
      rfl
    | none =>
      have hstep : convertLoop parse columns gi (hit :: rest) acc
          = convertLoop parse columns gi rest acc := by
        rw [convertLoop, hrow]
      rw [hstep, ih acc, List.filterMap_cons, hrow]

theorem convert_ok {γ : Type} (isGeom : Column → Bool) (parse : JSValue → Except Unit γ)
    (columns : List Column) (values : List (List JSValue)) (gi : Nat)
    (hloc : getGeometryColumnIndex isGeom columns = .ok gi) :
    convertToGeoJson isGeom parse ⟨columns, values⟩
      = .ok ⟨"FeatureCollection", values.filterMap (processRow parse columns gi)⟩ := by
  simp only [convertToGeoJson, hloc]
  rw [convertLoop_eq, List.nil_append]

theorem convert_err {γ : Type} (isGeom : Column → Bool) (parse : JSValue → Except Unit γ)
    (columns : List Column) (values : List (List JSValue)) (e : ColumnResolutionError)
    (hloc : getGeometryColumnIndex isGeom columns = .error e) :
    convertToGeoJson isGeom parse ⟨columns, values⟩ = .error e := by
  simp only [convertToGeoJson, hloc]

theorem geomCandidatesFrom_length (isGeom : Column → Bool) (columns : List Column) :
    ∀ s, (geomCandidatesFrom isGeom s columns).length = (columns.filter isGeom).length := by
  induction columns with
  | nil => intro s; rfl
  | cons c rest ih =>
    intro s
    by_cases hc : isGeom c
    · simp [geomCandidatesFrom, List.filter_cons, hc, ih]
    · simp [geomCandidatesFrom, List.filter_cons, hc, ih]

theorem locator_err_iff (isGeom : Column → Bool) (columns : List Column) :
    getGeometryColumnIndex isGeom columns = .error .mk ↔
      (columns.filter isGeom).length ≠ 1 := by
  have hlen := geomCandidatesFrom_length isGeom columns 0
  constructor
  · intro h hfil
    obtain ⟨j, hj⟩ : ∃ j, geomCandidatesFrom isGeom 0 columns = [j] := by
      cases hcand : geomCandidatesFrom isGeom 0 columns with
      | nil =>
        rw [hcand, hfil] at hlen
        exact absurd hlen (by simp)
      | cons a rest =>
        cases rest with
        | nil => exact ⟨a, rfl⟩
        | cons b r =>
          rw [hcand, hfil] at hlen
          simp at hlen
    rw [getGeometryColumnIndex, hj] at h
    exact Except.noConfusion h
  · intro hfil
    cases hcand : geomCandidatesFrom isGeom 0 columns with
    | nil => rw [getGeometryColumnIndex, hcand]
    | cons a rest =>
      cases rest with
      | nil =>
        rw [hcand] at hlen
        exfalso
        simp at hlen
        omega
      | cons b r => rw [getGeometryColumnIndex, hcand]

theorem locator_ok_iff (isGeom : Column → Bool) (columns : List Column) :
    (∃ gi, getGeometryColumnIndex isGeom columns = .ok gi) ↔
      (columns.filter isGeom).length = 1 := by
  constructor
  · intro h
    obtain ⟨gi, hgi⟩ := h
    by_contra hne
    have herr : getGeometryColumnIndex isGeom columns = .error .mk :=
      (locator_err_iff isGeom columns).mpr hne
    rw [hgi] at herr
    exact Except.noConfusion herr
  · intro h1
    cases hres : getGeometryColumnIndex isGeom columns with
    | ok gi => exact ⟨gi, rfl⟩
    | error e =>
      cases e
      rw [locator_err_iff] at hres
      exact absurd h1 hres

theorem buildProps_ok_of_le (columns : List Column) (gi : Nat) (hit : List JSValue)
    (hlen : hit.length ≤ columns.length) :
    ∃ props, buildProps columns gi hit = .ok props := by
  apply buildPropsAux_ok
  intro p hp _
  have := (mem_idxPairs_bounds hit 0 p hp).2
  omega

theorem processRow_isSome_iff {γ : Type} (parse : JSValue → Except Unit γ)
    (columns : List Column) (gi : Nat) (hit : List JSValue) :
    (processRow parse columns gi hit).isSome ↔
      (truthy (geomValue gi hit) = true ∧ (∃ g, parse (geomValue gi hit) = .ok g) ∧
        (∃ props, buildProps columns gi hit = .ok props)) := by
  rw [processRow]
  by_cases ht : truthy (geomValue gi hit) = true
  · rw [if_pos ht]
    cases hp : parse (geomValue gi hit) with
    | error e =>
      simp [ht, hp]
    | ok g =>
      cases hb : buildProps columns gi hit with
      | error e => simp [ht, hp, hb]
      | ok props => simp [ht, hp, hb]
  · rw [if_neg ht]
    simp [ht]

theorem processRow_eq_none_of_falsy {γ : Type} (parse : JSValue → Except Unit γ)
    (columns : List Column) (gi : Nat) (hit : List JSValue)
    (h : truthy (geomValue gi hit) = false) :
    processRow parse columns gi hit = none := by
  rw [processRow]
  rw [if_neg (by rw [h]; exact Bool.false_ne_true)]

theorem processRow_eq_none_of_parse_err {γ : Type} (parse : JSValue → Except Unit γ)
    (columns : List Column) (gi : Nat) (hit : List JSValue)
    (h : parse (geomValue gi hit) = .error ()) :
    processRow parse columns gi hit = none := by
  rw [processRow]
  by_cases ht : truthy (geomValue gi hit) = true
  · rw [if_pos ht, h]
  · rw [if_neg ht]

theorem processRow_some_props {γ : Type} (parse : JSValue → Except Unit γ)
    (columns : List Column) (gi : Nat) (hit : List JSValue) (f : Feature γ)
    (h : processRow parse columns gi hit = some f) :
    buildProps columns gi hit = .ok f.properties := by
  rw [processRow] at h
  by_cases ht : truthy (geomValue gi hit) = true
  · rw [if_pos ht] at h
    cases hp : parse (geomValue gi hit) with
    | error e => rw [hp] at h; exact Option.noConfusion h
    | ok g =>
      rw [hp] at h
      cases hb : buildProps columns gi hit with
      | error e => rw [hb] at h; exact Option.noConfusion h
      | ok props =>
        rw [hb] at h
        have hf : (⟨"Feature", g, props⟩ : Feature γ) = f := Option.some.inj h
        rw [← hf]
  · rw [if_neg ht] at h
    exact Option.noConfusion h

theorem length_filterMap_eq_iff {α β : Type} (f : α → Option β) (l : List α) :
    (l.filterMap f).length = l.length ↔ ∀ a ∈ l, (f a).isSome := by
  induction l with
  | nil => simp
  | cons a rest ih =>
    cases hfa : f a with
    | none =>
      have hle := List.length_filterMap_le f rest
      simp only [List.filterMap_cons, hfa, List.length_cons]
      constructor
      · intro h
        exfalso
        omega
      · intro h
        have := h a (List.mem_cons_self _ _)
        rw [hfa] at this
        exact absurd this (by simp)
    | some b =>
      simp only [List.filterMap_cons, hfa, List.length_cons]
      constructor
      · intro h
        intro x hx
        rcases List.mem_cons.mp hx with hx | hx
        · subst hx
          rw [hfa]
          rfl
        · exact (ih.mp (by omega)) x hx
      · intro h
        have := ih.mpr (fun x hx => h x (List.mem_cons_of_mem _ hx))
        omega

theorem getProp_last_occ (columns : List Column) (gi : Nat) (hit : List JSValue)
    (props : PropList) (k : Nat) (n : String)
    (hk : k < hit.length) (hkg : k ≠ gi)
    (hname : colName columns k = some n)
    (hlast : ∀ m, k < m → m < hit.length → m ≠ gi → colName columns m ≠ some n)
    (hb : buildProps columns gi hit = .ok props) :
    getProp props n = hit.get? k := by
  rw [getProp_buildProps columns gi hit props hb n]
  have hsplit : hit = hit.take k ++ hit.get ⟨k, hk⟩ :: hit.drop (k + 1) := by
    conv_lhs => rw [← List.take_append_drop k hit]
    congr 1
    have := List.getElem_cons_drop hit k hk
    simp only [List.get_eq_getElem]
    exact this.symm
  have htk : (hit.take k).length = k := by
    rw [List.length_take]
    omega
  conv_lhs => rw [hsplit]
  rw [idxPairs_append, htk, lastAssign_append]
  rw [idxPairs]
  rw [lastAssign]
  simp only [Nat.zero_add]
  have hnone : lastAssign columns gi (idxPairs (k + 1) (hit.drop (k + 1))) n = none := by
    apply lastAssign_none
    intro p hp hc
    obtain ⟨h1, h2⟩ := mem_idxPairs_bounds _ _ _ hp
    rw [List.length_drop] at h2
    exact hlast p.1 (by omega) (by omega) hc.1 hc.2
  rw [hnone]
  rw [if_pos ⟨hkg, hname⟩]
  rw [List.get?_eq_get hk]
  rfl

theorem getProp_isSome_occ (columns : List Column) (gi : Nat) (hit : List JSValue)
    (props : PropList) (k : Nat) (n : String)
    (hk : k < hit.length) (hkg : k ≠ gi)
    (hname : colName columns k = some n)
    (hb : buildProps columns gi hit = .ok props) :
    (getProp props n).isSome := by
  rw [getProp_buildProps columns gi hit props hb n]
  exact lastAssign_isSome_of_mem columns gi (idxPairs 0 hit) n k (hit.get ⟨k, hk⟩)
    (by simpa using idxPairs_get_mem hit 0 k hk) hkg hname

theorem getProp_isSome_provenance (columns : List Column) (gi : Nat) (hit : List JSValue)
    (props : PropList) (n : String)
    (hb : buildProps columns gi hit = .ok props)
    (h : (getProp props n).isSome) :
    ∃ j, j < hit.length ∧ j ≠ gi ∧ colName columns j = some n := by
  rw [getProp_buildProps columns gi hit props hb n] at h
  obtain ⟨v, hv⟩ := Option.isSome_iff_exists.mp h
  obtain ⟨j, hmem, hj, hcol⟩ := lastAssign_some_mem columns gi (idxPairs 0 hit) n v hv
  have := (mem_idxPairs_bounds hit 0 (j, v) hmem).2
  exact ⟨j, by omega, hj, hcol⟩

/-- Every row that is emitted passes the truthiness guard, parses, and builds
its properties without an exception; the feature is exactly the record pushed
by the source. -/
theorem processRow_emits {γ : Type} (parse : JSValue → Except Unit γ)
    (columns : List Column) (gi : Nat) (hit : List JSValue) (g : γ) (props : PropList)
    (ht : truthy (geomValue gi hit) = true)
    (hp : parse (geomValue gi hit) = .ok g)
    (hb : buildProps columns gi hit = .ok props) :
    processRow parse columns gi hit = some ⟨"Feature", g, props⟩ := by
  simp [processRow, ht, hp, hb]

/-- C1 counterexample: a single geometry column and the row
`["POINT (1 2)", 5]`.  The geometry value is truthy and the parser succeeds on
it, yet the row is dropped — reading `resp.columns[1].name` throws inside the
`try` block — so the feature count is `0` while the row count is `1`, refuting
the claimed "equality iff every row has a non-empty, parseable geometry". -/
theorem c1_row_count_counterexample :
    convertToGeoJson isGeomStd parseOkAll ⟨colsOnlyGeo, [rowOverlong]⟩ =
      .ok ⟨"FeatureCollection", []⟩ ∧
    getGeometryColumnIndex isGeomStd colsOnlyGeo = .ok 0 ∧
    truthy (geomValue 0 rowOverlong) = true ∧
    parseOkAll (geomValue 0 rowOverlong) = .ok (.vStr "POINT (1 2)") ∧
    (FeatureCollection.features
      (⟨"FeatureCollection", []⟩ : FeatureCollection JSValue)).length ≠
      [rowOverlong].length :=
  ⟨rfl, rfl, rfl, rfl, by decide⟩

/-- C1 (amended): the number of emitted features never exceeds the number of
rows; and under the precondition that no row is longer than the column list,
the counts are equal iff every row has a truthy geometry value on which the
parser returns normally.  (The unamended claim fails when a row is longer than
the column list: the properties loop then faults and the row is dropped even
though its geometry parsed — see the counterexample.) -/
theorem c1_row_count {γ : Type} (isGeom : Column → Bool) (parse : JSValue → Except Unit γ)
    (columns : List Column) (values : List (List JSValue)) (gi : Nat)
    (fc : FeatureCollection γ)
    (hloc : getGeometryColumnIndex isGeom columns = .ok gi)
    (hc : convertToGeoJson isGeom parse ⟨columns, values⟩ = .ok fc) :
    fc.features.length ≤ values.length ∧
    ((∀ hit ∈ values, hit.length ≤ columns.length) →
      (fc.features.length = values.length ↔
        ∀ hit ∈ values, truthy (geomValue gi hit) = true ∧
          ∃ g, parse (geomValue gi hit) = .ok g)) := by
  have h2 := convert_ok isGeom parse columns values gi hloc
  rw [hc] at h2
  have hfc := Except.ok.inj h2
  subst hfc
  constructor
  · exact List.length_filterMap_le _ _
  · intro hrows
    show (values.filterMap (processRow parse columns gi)).length = values.length ↔ _
    rw [length_filterMap_eq_iff]
    constructor
    · intro h hit hm
      have hs := h hit hm
      rw [processRow_isSome_iff] at hs
      exact ⟨hs.1, hs.2.1⟩
    · intro h hit hm
      rw [processRow_isSome_iff]
      exact ⟨(h hit hm).1, (h hit hm).2,
        buildProps_ok_of_le columns gi hit (hrows hit hm)⟩

/-- C1 witness: colsGC with one good row and one null row. -/
theorem c1_row_count_witness :
    getGeometryColumnIndex isGeomStd colsGC = .ok 0 ∧
    convertToGeoJson isGeomStd parseOkAll
        ⟨colsGC, [[.vStr "POINT (1 2)", .vNum 5], [.vNull, .vNum 9]]⟩ =
      .ok ⟨"FeatureCollection", [featCount5]⟩ ∧
    (FeatureCollection.features
        (⟨"FeatureCollection", [featCount5]⟩ : FeatureCollection JSValue)).length ≤
      [[JSValue.vStr "POINT (1 2)", JSValue.vNum 5], [JSValue.vNull, JSValue.vNum 9]].length :=
  ⟨rfl, rfl,
    (c1_row_count isGeomStd parseOkAll colsGC
      [[.vStr "POINT (1 2)", .vNum 5], [.vNull, .vNum 9]] 0
      ⟨"FeatureCollection", [featCount5]⟩ rfl rfl).1⟩

/-- C2: once the geometry column resolves, the conversion is total for every
parser (first conjunct); a row whose geometry value the parser rejects is
dropped and the conversion of the remaining rows is unchanged (second
conjunct); an empty row set yields an empty feature collection (third
conjunct); and if every truthy row fails to parse the result is an empty
feature collection, never an error (fourth conjunct). -/
theorem c2_parse_failure_skips {γ : Type} (isGeom : Column → Bool)
    (parse : JSValue → Except Unit γ) (columns : List Column) (gi : Nat)
    (hloc : getGeometryColumnIndex isGeom columns = .ok gi) :
    (∀ values, ∃ fc, convertToGeoJson isGeom parse ⟨columns, values⟩ = .ok fc) ∧
    (∀ pre hit post, parse (geomValue gi hit) = .error () →
      convertToGeoJson isGeom parse ⟨columns, pre ++ hit :: post⟩
        = convertToGeoJson isGeom parse ⟨columns, pre ++ post⟩) ∧
    (convertToGeoJson isGeom parse ⟨columns, []⟩ = .ok ⟨"FeatureCollection", []⟩) ∧
    (∀ values, (∀ hit ∈ values, truthy (geomValue gi hit) = true →
        parse (geomValue gi hit) = .error ()) →
      convertToGeoJson isGeom parse ⟨columns, values⟩ = .ok ⟨"FeatureCollection", []⟩) := by
  refine ⟨?_, ?_, ?_, ?_⟩
  · intro values
    exact ⟨_, convert_ok isGeom parse columns values gi hloc⟩
  · intro pre hit post hperr
    rw [convert_ok isGeom parse columns _ gi hloc, convert_ok isGeom parse columns _ gi hloc]
    rw [List.filterMap_append, List.filterMap_append, List.filterMap_cons]
    rw [processRow_eq_none_of_parse_err parse columns gi hit hperr]
  · rw [convert_ok isGeom parse columns [] gi hloc]
    rfl
  · intro values hall
    rw [convert_ok isGeom parse columns values gi hloc]
    have hnil : values.filterMap (processRow parse columns gi) = [] := by
      rw [List.filterMap_eq_nil_iff]
      intro hit hm
      by_cases ht : truthy (geomValue gi hit) = true
      · exact processRow_eq_none_of_parse_err parse columns gi hit (hall hit hm ht)
      · have hf : truthy (geomValue gi hit) = false := by
          revert ht
          cases truthy (geomValue gi hit) <;> simp
        exact processRow_eq_none_of_falsy parse columns gi hit hf
    rw [hnil]

/-- C2 witness: the always-throwing parser over colsGC. -/
theorem c2_parse_failure_skips_witness :
    getGeometryColumnIndex isGeomStd colsGC = .ok 0 ∧
    convertToGeoJson isGeomStd parseFailAll ⟨colsGC, []⟩ = .ok ⟨"FeatureCollection", []⟩ :=
  ⟨rfl, (c2_parse_failure_skips isGeomStd parseFailAll colsGC 0 rfl).2.2.1⟩

/-- C3: the locator fails exactly when the columns do not contain exactly one
recognizable geometry column; in that case the conversion returns the
locator's error for every row set — independently of the rows, so no partial
output is produced — and otherwise the conversion always succeeds, so the
locator is the only failure source.  (The locator is modelled from the spec;
see `getGeometryColumnIndex`.) -/
theorem c3_locator_failure {γ : Type} (isGeom : Column → Bool)
    (parse : JSValue → Except Unit γ) (columns : List Column) :
    ((columns.filter isGeom).length ≠ 1 ↔
      getGeometryColumnIndex isGeom columns = .error .mk) ∧
    ((columns.filter isGeom).length ≠ 1 →
      ∀ values values₂,
        convertToGeoJson isGeom parse ⟨columns, values⟩ = .error .mk ∧
        convertToGeoJson isGeom parse ⟨columns, values⟩
          = convertToGeoJson isGeom parse ⟨columns, values₂⟩) ∧
    ((columns.filter isGeom).length = 1 →
      ∀ values, ∃ fc, convertToGeoJson isGeom parse ⟨columns, values⟩ = .ok fc) := by
  refine ⟨(locator_err_iff isGeom columns).symm, ?_, ?_⟩
  · intro hne values values₂
    have herr := (locator_err_iff isGeom columns).mpr hne
    rw [convert_err isGeom parse columns values .mk herr,
        convert_err isGeom parse columns values₂ .mk herr]
    exact ⟨rfl, rfl⟩
  · intro h1 values
    obtain ⟨gi, hgi⟩ := (locator_ok_iff isGeom columns).mpr h1
    exact ⟨_, convert_ok isGeom parse columns values gi hgi⟩

/-- C3 witness: a column list with no geometry column aborts the conversion
with the locator's error. -/
theorem c3_locator_failure_witness :
    (colsNoGeo.filter isGeomStd).length ≠ 1 ∧
    convertToGeoJson isGeomStd parseOkAll ⟨colsNoGeo, [[.vNum 5]]⟩ = .error .mk :=
  ⟨by decide,
    ((c3_locator_failure isGeomStd parseOkAll colsNoGeo).2.1 (by decide) [[.vNum 5]] []).1⟩

/-- C4: conversion distributes over row concatenation — features of earlier
rows precede features of later rows, so skipping rows never reorders the
survivors — and every emitted feature is the processed image of some input
row. -/
theorem c4_order_preservation {γ : Type} (isGeom : Column → Bool)
    (parse : JSValue → Except Unit γ) (columns : List Column) (gi : Nat)
    (l₁ l₂ : List (List JSValue)) (fc fc₁ fc₂ : FeatureCollection γ)
    (hloc : getGeometryColumnIndex isGeom columns = .ok gi)
    (h : convertToGeoJson isGeom parse ⟨columns, l₁ ++ l₂⟩ = .ok fc)
    (h₁ : convertToGeoJson isGeom parse ⟨columns, l₁⟩ = .ok fc₁)
    (h₂ : convertToGeoJson isGeom parse ⟨columns, l₂⟩ = .ok fc₂) :
    fc.features = fc₁.features ++ fc₂.features ∧
    ∀ f ∈ fc.features, ∃ hit, hit ∈ l₁ ++ l₂ ∧ processRow parse columns gi hit = some f := by
  have e := convert_ok isGeom parse columns (l₁ ++ l₂) gi hloc
  rw [h] at e
  have e₁ := convert_ok isGeom parse columns l₁ gi hloc
  rw [h₁] at e₁
  have e₂ := convert_ok isGeom parse columns l₂ gi hloc
  rw [h₂] at e₂
  have hfc := Except.ok.inj e
  have hfc₁ := Except.ok.inj e₁
  have hfc₂ := Except.ok.inj e₂
  subst hfc hfc₁ hfc₂
  constructor
  · show (l₁ ++ l₂).filterMap (processRow parse columns gi)
      = l₁.filterMap (processRow parse columns gi) ++ l₂.filterMap (processRow parse columns gi)
    rw [List.filterMap_append]
  · intro f hf
    exact List.mem_filterMap.mp hf

/-- C4 witness: one good row, then a null row, then another good row; the
survivors keep their input order. -/
theorem c4_order_preservation_witness :
    getGeometryColumnIndex isGeomStd colsGC = .ok 0 ∧
    convertToGeoJson isGeomStd parseOkAll
        ⟨colsGC, [[.vStr "POINT (1 2)", .vNum 5]] ++ [[.vNull, .vNum 9], [.vStr "POINT (1 2)", .vNum 7]]⟩ =
      .ok ⟨"FeatureCollection", [featCount5, featCount7]⟩ ∧
    (FeatureCollection.features
        (⟨"FeatureCollection", [featCount5, featCount7]⟩ : FeatureCollection JSValue)) =
      (FeatureCollection.features
        (⟨"FeatureCollection", [featCount5]⟩ : FeatureCollection JSValue)) ++
      (FeatureCollection.features
        (⟨"FeatureCollection", [featCount7]⟩ : FeatureCollection JSValue)) :=
  ⟨rfl, rfl,
    (c4_order_preservation isGeomStd parseOkAll colsGC 0
      [[.vStr "POINT (1 2)", .vNum 5]] [[.vNull, .vNum 9], [.vStr "POINT (1 2)", .vNum 7]]
      ⟨"FeatureCollection", [featCount5, featCount7]⟩
      ⟨"FeatureCollection", [featCount5]⟩
      ⟨"FeatureCollection", [featCount7]⟩ rfl rfl rfl rfl).1⟩

/-- C5: a row whose geometry value is falsy (null, undefined, the empty
string, the number 0, or false) contributes no feature — for every parser,
since the row is skipped before the parser is consulted — and removing such a
row from the input leaves the conversion result unchanged, with no error. -/
theorem c5_falsy_skip (columns : List Column) (gi : Nat) (hit : List JSValue)
    (hfalsy : truthy (geomValue gi hit) = false) :
    (∀ (γ : Type) (parse : JSValue → Except Unit γ), processRow parse columns gi hit = none) ∧
    (∀ (γ : Type) (parse : JSValue → Except Unit γ) (isGeom : Column → Bool)
        (pre post : List (List JSValue)),
      getGeometryColumnIndex isGeom columns = .ok gi →
      convertToGeoJson isGeom parse ⟨columns, pre ++ hit :: post⟩
        = convertToGeoJson isGeom parse ⟨columns, pre ++ post⟩) ∧
    (truthy .vNull = false ∧ truthy .vUndefined = false ∧ truthy (.vStr "") = false ∧
      truthy (.vNum 0) = false ∧ truthy (.vBool false) = false) := by
  refine ⟨?_, ?_, by decide⟩
  · intro γ parse
    exact processRow_eq_none_of_falsy parse columns gi hit hfalsy
  · intro γ parse isGeom pre post hloc
    rw [convert_ok isGeom parse columns _ gi hloc, convert_ok isGeom parse columns _ gi hloc]
    rw [List.filterMap_append, List.filterMap_append, List.filterMap_cons]
    rw [processRow_eq_none_of_falsy parse columns gi hit hfalsy]

/-- C5 witness: the falsy number 0 in the geometry column skips the row. -/
theorem c5_falsy_skip_witness :
    truthy (geomValue 0 [JSValue.vNum 0, JSValue.vNum 9]) = false ∧
    processRow parseOkAll colsGC 0 [JSValue.vNum 0, JSValue.vNum 9] = none :=
  ⟨rfl, (c5_falsy_skip colsGC 0 [JSValue.vNum 0, JSValue.vNum 9] rfl).1 JSValue parseOkAll⟩

/-- C6 counterexample: two non-geometry columns both named `id` with row
values 1 and 2.  The emitted feature's single `id` entry holds 2, so the
column at index 1 has no entry whose value is the row value at index 1 — the
claim's "an entry for every non-geometry column … with the value taken from
the row at that column's index" fails. -/
theorem c6_property_completeness_counterexample :
    processRow parseOkAll colsDupId 0 rowDupId = some featDupId ∧
    rowDupId.length = colsDupId.length ∧
    colsDupId.get? 1 = some ⟨"id", "long"⟩ ∧
    rowDupId.get? 1 = some (.vNum 1) ∧
    getProp featDupId.properties "id" ≠ some (.vNum 1) :=
  ⟨rfl, rfl, rfl, rfl, by decide⟩

/-- C6 (amended): under the row-length precondition, every emitted feature's
properties has an entry keyed by each non-geometry column's name, and that
entry's value is the row value at the column's index whenever no later
non-geometry column bears the same name (in particular whenever the names are
distinct); with duplicate names the later occurrence's value overwrites the
earlier one, which is the single point where the unamended claim fails. -/
theorem c6_property_completeness {γ : Type} (parse : JSValue → Except Unit γ)
    (columns : List Column) (gi : Nat) (hit : List JSValue) (f : Feature γ)
    (hlen : hit.length = columns.length)
    (hf : processRow parse columns gi hit = some f) :
    ∀ j, (hj : j < columns.length) → j ≠ gi →
      ((getProp f.properties ((columns.get ⟨j, hj⟩).name)).isSome ∧
       ((∀ m, j < m → m < columns.length → m ≠ gi →
           colName columns m ≠ some ((columns.get ⟨j, hj⟩).name)) →
         getProp f.properties ((columns.get ⟨j, hj⟩).name) = hit.get? j)) := by
  intro j hj hjg
  have hb := processRow_some_props parse columns gi hit f hf
  have hjh : j < hit.length := by omega
  have hcn : colName columns j = some ((columns.get ⟨j, hj⟩).name) := by
    rw [colName, List.get?_eq_get hj]
    rfl
  constructor
  · exact getProp_isSome_occ columns gi hit f.properties j _ hjh hjg hcn hb
  · intro hlater
    exact getProp_last_occ columns gi hit f.properties j _ hjh hjg hcn
      (fun m hm1 hm2 hm3 => hlater m hm1 (by omega) hm3) hb

/-- C6 witness: colsGC with the row `["POINT (1 2)", 5]` and the non-geometry
column at index 1. -/
theorem c6_property_completeness_witness :
    [JSValue.vStr "POINT (1 2)", JSValue.vNum 5].length = colsGC.length ∧
    processRow parseOkAll colsGC 0 [.vStr "POINT (1 2)", .vNum 5] = some featCount5 ∧
    (getProp featCount5.properties ((colsGC.get ⟨1, by decide⟩).name)).isSome :=
  ⟨rfl, rfl,
    ((c6_property_completeness parseOkAll colsGC 0 [.vStr "POINT (1 2)", .vNum 5]
      featCount5 rfl rfl) 1 (by decide) (by decide)).1⟩

/-- C7 counterexample: a non-geometry column shares the geometry column's
name `geom` and its row value equals the raw geometry value, so the raw value
stored at the geometry index does appear in the emitted feature's properties
under the geometry column's name, refuting the claim's "never". -/
theorem c7_geometry_exclusion_counterexample :
    convertToGeoJson isGeomStd parseOkAll ⟨colsDupGeomName, [rowDupGeomName]⟩ =
      .ok ⟨"FeatureCollection",
        [⟨"Feature", .vStr "POINT (1 2)", [("geom", .vStr "POINT (1 2)")]⟩]⟩ ∧
    getGeometryColumnIndex isGeomStd colsDupGeomName = .ok 0 ∧
    colsDupGeomName.get? 0 = some ⟨"geom", "geo_point"⟩ ∧
    geomValue 0 rowDupGeomName = .vStr "POINT (1 2)" ∧
    getProp [("geom", JSValue.vStr "POINT (1 2)")] "geom" = some (.vStr "POINT (1 2)") :=
  ⟨rfl, rfl, rfl, rfl, rfl⟩

/-- C7 (amended): the properties loop always skips the geometry column's
index, so the geometry column itself never contributes an entry; consequently
whenever no other column within the row's index range bears the geometry
column's name, that name is absent from the emitted feature's properties
altogether.  (If another column does share the name — the counterexample —
its row value, which may equal the raw geometry value, appears there.) -/
theorem c7_geometry_exclusion {γ : Type} (parse : JSValue → Except Unit γ)
    (columns : List Column) (gi : Nat) (hit : List JSValue) (f : Feature γ) (gn : String)
    (_hgn : colName columns gi = some gn)
    (hsole : ∀ m, m < hit.length → m ≠ gi → colName columns m ≠ some gn)
    (hf : processRow parse columns gi hit = some f) :
    getProp f.properties gn = none := by
  have hb := processRow_some_props parse columns gi hit f hf
  rw [getProp_buildProps columns gi hit f.properties hb gn]
  apply lastAssign_none
  intro p hp hc
  obtain ⟨h1, h2⟩ := mem_idxPairs_bounds hit 0 p hp
  exact hsole p.1 (by omega) hc.1 hc.2

/-- C7 witness: colsGC, where no other column is named `geometry`. -/
theorem c7_geometry_exclusion_witness :
    colName colsGC 0 = some "geometry" ∧
    processRow parseOkAll colsGC 0 [.vStr "POINT (1 2)", .vNum 5] = some featCount5 ∧
    getProp featCount5.properties "geometry" = none :=
  ⟨rfl, rfl,
    c7_geometry_exclusion parseOkAll colsGC 0 [.vStr "POINT (1 2)", .vNum 5]
      featCount5 "geometry" rfl
      (fun m hm h0 => by
        have hm2 : m < 2 := by simpa using hm
        have hm1 : m = 1 := by omega
        subst hm1
        decide) rfl⟩

/-- C8: when a non-geometry column name repeats, the emitted feature's entry
for that name holds the value of the highest-index occurrence — later columns
overwrite earlier ones during in-order construction. -/
theorem c8_duplicate_names {γ : Type} (parse : JSValue → Except Unit γ)
    (columns : List Column) (gi : Nat) (hit : List JSValue) (f : Feature γ)
    (k : Nat) (n : String)
    (hlen : hit.length = columns.length)
    (hf : processRow parse columns gi hit = some f)
    (hk : k < columns.length) (hkg : k ≠ gi)
    (hn : colName columns k = some n)
    (hdup : ∃ j, j < k ∧ j ≠ gi ∧ colName columns j = some n)
    (hlast : ∀ m, k < m → m < columns.length → m ≠ gi → colName columns m ≠ some n) :
    getProp f.properties n = hit.get? k := by
  have hb := processRow_some_props parse columns gi hit f hf
  exact getProp_last_occ columns gi hit f.properties k n (by omega) hkg hn
    (fun m h1 h2 h3 => hlast m h1 (by omega) h3) hb

/-- C8 witness: two `id` columns with values 1 and 2; the feature's `id`
entry equals the later column's value 2. -/
theorem c8_duplicate_names_witness :
    rowDupId.length = colsDupId.length ∧
    processRow parseOkAll colsDupId 0 rowDupId = some featDupId ∧
    colName colsDupId 2 = some "id" ∧
    getProp featDupId.properties "id" = rowDupId.get? 2 :=
  ⟨rfl, rfl, rfl,
    c8_duplicate_names parseOkAll colsDupId 0 rowDupId featDupId 2 "id" rfl rfl
      (by decide) (by decide) rfl
      ⟨1, by decide, by decide, rfl⟩
      (fun m h1 h2 h3 => by
        have h2' : m < 3 := by simpa [colsDupId] using h2
        omega)⟩

/-- C9 (implicit): whenever the truthiness guard passes and the parser
returns normally — with any value, including a null geometry — and the
properties loop completes, the row is emitted with the parser's return value
stored verbatim as the feature's geometry; the converter performs no
validation of it. -/
theorem c9_geometry_passthrough {γ : Type} (parse : JSValue → Except Unit γ)
    (columns : List Column) (gi : Nat) (hit : List JSValue) (g : γ) (props : PropList)
    (ht : truthy (geomValue gi hit) = true)
    (hp : parse (geomValue gi hit) = .ok g)
    (hb : buildProps columns gi hit = .ok props) :
    processRow parse columns gi hit = some ⟨"Feature", g, props⟩ :=
  processRow_emits parse columns gi hit g props ht hp hb

/-- C9 witness: a parser that returns a null geometry; the row is not
dropped and the feature stores the null. -/
theorem c9_geometry_passthrough_witness :
    truthy (geomValue 0 [JSValue.vStr "POINT (1 2)", JSValue.vNum 5]) = true ∧
    parseNullGeom (geomValue 0 [.vStr "POINT (1 2)", .vNum 5]) = .ok none ∧
    buildProps colsGC 0 [.vStr "POINT (1 2)", .vNum 5] = .ok [("count", .vNum 5)] ∧
    processRow parseNullGeom colsGC 0 [.vStr "POINT (1 2)", .vNum 5] =
      some ⟨"Feature", none, [("count", .vNum 5)]⟩ :=
  ⟨rfl, rfl, rfl,
    c9_geometry_passthrough parseNullGeom colsGC 0 [.vStr "POINT (1 2)", .vNum 5]
      none [("count", .vNum 5)] rfl rfl rfl⟩

/-- C10 (implicit): the properties loop is bounded by the row's own length,
so when no row index exceeds the column count the out-of-bounds branch is
unreachable — the loop returns normally — and every key present in the
properties comes from a non-geometry column index below the row's length
(a short row silently omits the trailing columns); such a row still emits a
feature whenever its geometry is truthy and parses. -/
theorem c10_loop_bounded (columns : List Column) (gi : Nat) (hit : List JSValue)
    (hlen : hit.length ≤ columns.length) :
    (∃ props, buildProps columns gi hit = .ok props ∧
      ∀ n, (getProp props n).isSome →
        ∃ j, j < hit.length ∧ j ≠ gi ∧ colName columns j = some n) ∧
    (∀ (γ : Type) (parse : JSValue → Except Unit γ) (g : γ),
      truthy (geomValue gi hit) = true → parse (geomValue gi hit) = .ok g →
      ∃ f, processRow parse columns gi hit = some f) := by
  obtain ⟨props, hprops⟩ := buildProps_ok_of_le columns gi hit hlen
  refine ⟨⟨props, hprops, ?_⟩, ?_⟩
  · intro n hn
    exact getProp_isSome_provenance columns gi hit props n hprops hn
  · intro γ parse g ht hp
    exact ⟨⟨"Feature", g, props⟩, processRow_emits parse columns gi hit g props ht hp hprops⟩

/-- C10 witness: a one-value row under the two colsGC columns builds empty
properties without an error. -/
theorem c10_loop_bounded_witness :
    [JSValue.vStr "POINT (1 2)"].length ≤ colsGC.length ∧
    ((∃ props, buildProps colsGC 0 [JSValue.vStr "POINT (1 2)"] = .ok props ∧
        ∀ n, (getProp props n).isSome →
          ∃ j, j < [JSValue.vStr "POINT (1 2)"].length ∧ j ≠ 0 ∧
            colName colsGC j = some n) ∧
     (∀ (γ : Type) (parse : JSValue → Except Unit γ) (g : γ),
        truthy (geomValue 0 [JSValue.vStr "POINT (1 2)"]) = true →
        parse (geomValue 0 [JSValue.vStr "POINT (1 2)"]) = .ok g →
        ∃ f, processRow parse colsGC 0 [JSValue.vStr "POINT (1 2)"] = some f)) :=
  ⟨by decide, c10_loop_bounded colsGC 0 [JSValue.vStr "POINT (1 2)"] (by decide)⟩

end EsqlGeoJson
